import Mathlib

/-!
Verification of the Stride-AI-Agents property-scraper pipeline.

Shallow embedding of the two source files:
* `002-stride-swarm-crawl4ai-marketing-agent/main.py` — rendering fetch with a
  300-second ceiling, BeautifulSoup extraction of seven listing fields, JSON
  persistence (`json.dump(..., ensure_ascii=False, indent=2)`), analysis and
  report file writes driven by `UserInterfaceAgent.run`.
* `test2.py` — plain-HTTP fetch configured with `urllib3`'s
  `Retry(total=5, status_forcelist=[429, 500, 502, 503, 504],
  allowed_methods=["HEAD", "GET", "OPTIONS"], backoff_factor=1)`, and the same
  seven-field extraction.

Python library calls that the source delegates to (`bs4` tree search,
`urllib3.util.retry.Retry`, `json.dump`/`json.load`, `urllib.parse.urlparse`,
`os.makedirs`, `open(..., "w")`) are embedded by their documented semantics,
since they define the observable behaviour of the configuration the source
passes to them.
-/

/-- DOM node of the parsed HTML document: a text node, or an element with a
tag name, a (multi-valued) class attribute and a list of children.  This is
the tree `BeautifulSoup(html, 'html.parser')` hands to the extraction loop. -/
inductive Node where
  | text (s : String)
  | elem (tag : String) (classes : List String) (children : List Node)

mutual

/-- All descendants of a node in document (pre-)order, the node itself
excluded — the nodes BeautifulSoup's default recursive search visits. -/
def descendantsOf : Node → List Node
  | .text _ => []
  | .elem _ _ cs => descendantsList cs

/-- Descendant traversal of a forest: each root, then its subtree, then the
following roots. -/
def descendantsList : List Node → List Node
  | [] => []
  | n :: rest => n :: (descendantsOf n ++ descendantsList rest)

end

/-- Direct children of a node (one level only). -/
def directChildren : Node → List Node
  | .text _ => []
  | .elem _ _ cs => cs

/-- The filter `soup.find_all('div', class_=cls)` applies: element with the
given tag whose class attribute contains `cls`. -/
def nodeMatches (tag cls : String) : Node → Bool
  | .text _ => false
  | .elem t classes _ => t == tag && classes.contains cls

/-- `find_all(tag, class_=cls)`: every matching descendant, in document
order (BeautifulSoup's default `recursive=True`). -/
def bs4FindAll (tag cls : String) (n : Node) : List Node :=
  (descendantsOf n).filter (nodeMatches tag cls)

mutual

/-- `item.find(tag, class_=cls)`: recursive-descent search returning the
first matching descendant of `n` in document order, or `none`. -/
def bs4Find (tag cls : String) : Node → Option Node
  | .text _ => none
  | .elem _ _ cs => bs4FindList tag cls cs

/-- Search a forest: first root that matches, else inside that root,
else the remaining roots. -/
def bs4FindList (tag cls : String) : List Node → Option Node
  | [] => none
  | n :: rest =>
    if nodeMatches tag cls n then some n
    else
      match bs4Find tag cls n with
      | some m => some m
      | none => bs4FindList tag cls rest

end

/-- Lookup following the spec's words for comparison with the code's
`bs4Find`: the sub-marker is sought only among the node's direct children. -/
def findDirectChild (tag cls : String) (n : Node) : Option Node :=
  ((directChildren n).filter (nodeMatches tag cls)).head?

/-- Python `str.strip()` whitespace test (ASCII whitespace). -/
def isPyWs (c : Char) : Bool :=
  c == ' ' || c == '\t' || c == '\n' || c == '\r' || c == '\x0b' || c == '\x0c'

/-- Python `str.strip()` on a character list: drop whitespace at both ends. -/
def stripList (l : List Char) : List Char :=
  ((l.dropWhile isPyWs).reverse.dropWhile isPyWs).reverse

mutual

/-- The text contents of a node's subtree in document order — the strings
BeautifulSoup's `_all_strings` yields. -/
def textsOf : Node → List String
  | .text s => [s]
  | .elem _ _ cs => textsList cs

/-- Text contents of a forest. -/
def textsList : List Node → List String
  | [] => []
  | n :: rest => textsOf n ++ textsList rest

end

/-- `node.get_text(strip=True)`: each contained string stripped, empty
results skipped, and the rest concatenated with no separator. -/
def getTextStrip (n : Node) : String :=
  String.join (((textsOf n).map (fun s => String.mk (stripList s.data))).filter (fun s => s ≠ ""))

/-- The seven field sub-markers, in the positional order of the source's
extraction loop (`main.py` lines 83–89, `test2.py` lines 84–90). -/
def fieldClasses : List String :=
  ["property-type", "rooms", "size", "price", "address", "energy-mark", "listing-date"]

/-- One field of the loop body:
`item.find('div', class_=cls).get_text(strip=True) if item.find('div', class_=cls) else 'N/A'`. -/
def extractField (item : Node) (cls : String) : String :=
  match bs4Find "div" cls item with
  | some n => getTextStrip n
  | none => "N/A"

/-- The seven-element record appended for one listing container. -/
def extractListing (item : Node) : List String :=
  fieldClasses.map (extractField item)

/-- The extraction loop over `soup.find_all('div', class_='search-list-item')`:
one record per listing container, in document order. -/
def webScraperExtract (soup : Node) : List (List String) :=
  (bs4FindAll "div" "search-list-item" soup).map extractListing

/-! ## Plain-HTTP fetch with retries (`test2.py` lines 61–77)

The source configures `urllib3.util.retry.Retry` and mounts it on a
`requests.Session`.  The retry loop and backoff formula below follow
urllib3's documented behaviour: a response whose status is in
`status_forcelist` (for an allowed method) is retried while `total`
increments remain, the sleep before a retry is
`backoff_factor * (2 ** (number of consecutive errors - 1))` capped at
`BACKOFF_MAX = 120`, and **no** sleep happens before the first retry
(`get_backoff_time` returns 0 when at most one error is in the history).
Exhausting `total` raises `MaxRetryError`; a non-retryable error status is
returned to `requests`, where `response.raise_for_status()` raises
`HTTPError` for any 4xx/5xx code. -/

/-- The parameters `test2.py` passes to `Retry(...)`. -/
structure RetryConfig where
  total : Nat
  statusForcelist : List Nat
  allowedMethods : List String
  backoffFactor : Nat

/-- `Retry(total=5, status_forcelist=[429, 500, 502, 503, 504],
allowed_methods=["HEAD", "GET", "OPTIONS"], backoff_factor=1)`. -/
def test2RetryConfig : RetryConfig :=
  ⟨5, [429, 500, 502, 503, 504], ["HEAD", "GET", "OPTIONS"], 1⟩

/-- A response status is retried when the method is allowed and the status
is in the forcelist. -/
def isRetryableStatus (cfg : RetryConfig) (method : String) (code : Nat) : Bool :=
  cfg.allowedMethods.contains method && cfg.statusForcelist.contains code

/-- urllib3's `Retry.BACKOFF_MAX` ceiling, in seconds. -/
def backoffCeiling : Nat := 120

/-- urllib3's `Retry.get_backoff_time` for `historyLen` consecutive errors:
zero before the first retry, otherwise `factor * 2 ^ (historyLen - 1)`
capped at the ceiling. -/
def getBackoffTime (factor historyLen : Nat) : Nat :=
  if historyLen ≤ 1 then 0 else min backoffCeiling (factor * 2 ^ (historyLen - 1))

/-- Terminal outcome of one `http.get(url)` call under the retry adapter,
followed by `response.raise_for_status()`. -/
inductive FetchOutcome where
  | success (code : Nat)
  | maxRetryError
  | statusError (code : Nat)
deriving DecidableEq

/-- `raise_for_status()` raises for 4xx/5xx; lower codes pass through. -/
def isSuccessStatus (code : Nat) : Bool := code < 400

/-- The retry loop: `statusOf i` is the status the server returns to the
`i`-th request (0-based).  Arguments: retries still allowed, index of the
request about to be evaluated, backoff delays slept so far (reversed).
Returns the delays in order and the terminal outcome. -/
def retryGo (cfg : RetryConfig) (method : String) (statusOf : Nat → Nat) :
    Nat → Nat → List Nat → List Nat × FetchOutcome
  | remaining, attempt, delays =>
    let code := statusOf attempt
    if isSuccessStatus code then (delays.reverse, .success code)
    else if isRetryableStatus cfg method code then
      match remaining with
      | 0 => (delays.reverse, .maxRetryError)
      | r + 1 =>
        retryGo cfg method statusOf r (attempt + 1)
          (getBackoffTime cfg.backoffFactor (cfg.total - r) :: delays)
    else (delays.reverse, .statusError code)

/-- One `http.get` on the session with the mounted retry adapter. -/
def sessionGetWithRetries (cfg : RetryConfig) (method : String) (statusOf : Nat → Nat) :
    List Nat × FetchOutcome :=
  retryGo cfg method statusOf cfg.total 0 []

/-! ## URL parsing and output folder (`main.py` lines 35–40)

`create_website_folder` computes `urlparse(url).netloc`, takes the part of
the domain before the first dot and calls `os.makedirs(folder_name,
exist_ok=True)`.  `urlparse` (per CPython's `urlsplit`) strips a leading
`scheme:` only when the candidate scheme is non-empty, starts with an ASCII
letter and consists of scheme characters; the network location is non-empty
only when the remainder starts with `//`, and extends to the first `/`, `?`
or `#`.  `os.makedirs("")` raises `FileNotFoundError`. -/

/-- CPython `scheme_chars`: letters, digits, `+`, `-`, `.`. -/
def isSchemeChar (c : Char) : Bool :=
  c.isAlphanum || c == '+' || c == '-' || c == '.'

/-- Whether the URL starts with a valid `scheme:` per CPython `urlsplit`. -/
def hasValidScheme (l : List Char) : Bool :=
  let pre := l.takeWhile (fun c => !(c == ':'))
  decide (pre.length < l.length) && !pre.isEmpty &&
    (pre.headD '0').isAlpha && pre.all isSchemeChar

/-- The URL with a valid `scheme:` removed, otherwise unchanged. -/
def afterScheme (l : List Char) : List Char :=
  if hasValidScheme l then l.drop ((l.takeWhile (fun c => !(c == ':'))).length + 1) else l

/-- `urlparse(url).netloc`. -/
def urlparseNetloc (url : String) : String :=
  match afterScheme url.data with
  | '/' :: '/' :: rest =>
    String.mk (rest.takeWhile (fun c => !(c == '/') && !(c == '?') && !(c == '#')))
  | _ => ""

/-- `urlparse(url).netloc.split('.')[0]` — the output folder name. -/
def urlFolderName (url : String) : String :=
  String.mk ((urlparseNetloc url).data.takeWhile (fun c => !(c == '.')))

/-! ## Pipeline effect model (`main.py`)

The run is modelled as a function of the inputs that the outside world
chooses — the URL, how the rendering crawl behaves, and whether the OpenAI
completion call fails — returning the ordered trace of side effects
performed together with the Python-level result.  An uncaught exception is
an `.error` value; `scrape_website`'s `return None, None` after a caught
crawl failure is `none`. -/

/-- Python exceptions that the modelled run can surface. -/
inductive PyErr where
  | fileNotFound
  | summarizationError
deriving DecidableEq

/-- Observable side effects of a run, in order: folder creation, network
fetch, file write (by path), completion-API call. -/
inductive Effect where
  | mkdirFx (name : String)
  | fetchFx (url : String)
  | writeFx (path : String)
  | apiFx
deriving DecidableEq

/-- How the rendering crawl behaves for this run: finishes at `t` seconds
with a parsed document, raises at `t` seconds, or never completes. -/
inductive CrawlBehavior where
  | completesAt (t : Nat) (html : Node)
  | raisesAt (t : Nat)
  | never

/-- `asyncio.wait_for(..., timeout=300)` — the rendering fetch ceiling in
seconds (`main.py` line 64). -/
def renderTimeout : Nat := 300

/-- `create_website_folder(url)` (`main.py` lines 35–40): derives the folder
name and calls `os.makedirs(folder_name, exist_ok=True)`, which raises
`FileNotFoundError` on the empty name. -/
def createWebsiteFolder (url : String) : Except PyErr String :=
  let folderName := urlFolderName url
  if folderName = "" then .error .fileNotFound else .ok folderName

/-- Result of `scrape_website`: effects performed, whether the wait timed
out, seconds spent waiting on the crawl, and the returned data (`none` for
the `return None, None` paths). -/
structure ScrapeOutput where
  effects : List Effect
  timedOut : Bool
  elapsed : Nat
  data : Option (List (List String))
deriving DecidableEq

/-- `scrape_website(url)` (`main.py` lines 43–101): create the folder, run
the crawl under `asyncio.wait_for(timeout=300)` catching `TimeoutError` and
any other exception (returning `None, None`), else extract the listings and
write `property_data.json` into the folder.  A `create_website_folder`
failure propagates out uncaught. -/
def scrapeWebsite (url : String) (crawl : CrawlBehavior) : Except PyErr ScrapeOutput :=
  match createWebsiteFolder url with
  | .error e => .error e
  | .ok folder =>
    match crawl with
    | .never => .ok ⟨[.mkdirFx folder, .fetchFx url], true, renderTimeout, none⟩
    | .raisesAt t =>
      if t ≤ renderTimeout then .ok ⟨[.mkdirFx folder, .fetchFx url], false, t, none⟩
      else .ok ⟨[.mkdirFx folder, .fetchFx url], true, renderTimeout, none⟩
    | .completesAt t html =>
      if t ≤ renderTimeout then
        .ok ⟨[.mkdirFx folder, .fetchFx url,
              .writeFx (folder ++ "/property_data.json")], false, t,
             some (webScraperExtract html)⟩
      else .ok ⟨[.mkdirFx folder, .fetchFx url], true, renderTimeout, none⟩

/-- Result of `UserInterfaceAgent.run`: effect trace and Python result
(`.error` = exception escaped the driver uncaught). -/
structure RunOutput where
  effects : List Effect
  result : Except PyErr Unit

/-- `UserInterfaceAgent.run` (`main.py` lines 150–190): scrape; on `None`
data log and return; otherwise create the folder again, run the analyst
(one completion-API call, **not** wrapped in try/except — a failure
propagates out of the driver), then write `property_analysis.md` and
`property-report.md`. -/
def uiRun (url : String) (crawl : CrawlBehavior) (summarizerFails : Bool) : RunOutput :=
  match scrapeWebsite url crawl with
  | .error e => ⟨[], .error e⟩
  | .ok s =>
    match s.data with
    | none => ⟨s.effects, .ok ()⟩
    | some _ =>
      match createWebsiteFolder url with
      | .error e => ⟨s.effects, .error e⟩
      | .ok folder =>
        let fx := s.effects ++ [.mkdirFx folder, .apiFx]
        if summarizerFails then ⟨fx, .error .summarizationError⟩
        else ⟨fx ++ [.writeFx (folder ++ "/property_analysis.md"),
                     .writeFx (folder ++ "/property-report.md")], .ok ()⟩

/-! ## JSON persistence (`main.py` lines 95–97)

`json.dump(data, f, ensure_ascii=False, indent=2)` on the list of
seven-element string lists, and `json.load` to read the file back.  The
string escaper follows CPython's `encode_basestring` (used when
`ensure_ascii=False`): backslash, double quote and the control characters
below 0x20 are escaped (short escapes for `\b \t \n \f \r`, lowercase
`\u00XX` for the rest); every other character — in particular every
non-ASCII character — is emitted literally.  The reader models `json.load`
on the shape the program writes: JSON whitespace is skipped freely, and
string escapes are decoded per the JSON grammar (surrogate-pair escapes are
not needed because the writer never produces a `\uXXXX` above 0x1f). -/

/-- Lowercase hexadecimal digit, as CPython's `'\\u{0:04x}'.format(i)`. -/
def hexDigitChar (n : Nat) : Char :=
  if n < 10 then Char.ofNat (48 + n) else Char.ofNat (87 + n)

/-- CPython `ESCAPE_DCT` applied to one character (`ensure_ascii=False`). -/
def escChar (c : Char) : List Char :=
  if c = '\\' then ['\\', '\\']
  else if c = '"' then ['\\', '"']
  else if c.toNat < 32 then
    if c.toNat = 8 then ['\\', 'b']
    else if c.toNat = 9 then ['\\', 't']
    else if c.toNat = 10 then ['\\', 'n']
    else if c.toNat = 12 then ['\\', 'f']
    else if c.toNat = 13 then ['\\', 'r']
    else ['\\', 'u', '0', '0', hexDigitChar (c.toNat / 16), hexDigitChar (c.toNat % 16)]
  else [c]

/-- `json.encoder.encode_basestring`: the string in double quotes with each
character escaped as needed. -/
def encodeJString (s : String) : List Char :=
  '"' :: (s.data.flatMap escChar ++ ['"'])

/-- The newline-plus-indentation separator `json.dump` inserts at nesting
level `lvl` for `indent=2`. -/
def nlIndent (lvl : Nat) : List Char :=
  '\n' :: List.replicate (2 * lvl) ' '

/-- Concatenation with a separator between consecutive elements. -/
def joinSep (sep : List Char) : List (List Char) → List Char
  | [] => []
  | [x] => x
  | x :: y :: rest => x ++ sep ++ joinSep sep (y :: rest)

/-- One record (inner array of strings) as `json.dump(..., indent=2)`
renders it at nesting level `lvl`: `[]` when empty, otherwise the encoded
fields each on its own indented line. -/
def dumpRecord (lvl : Nat) (r : List String) : List Char :=
  match r with
  | [] => ['[', ']']
  | _ :: _ =>
    '[' :: (nlIndent (lvl + 1) ++
      joinSep (',' :: nlIndent (lvl + 1)) (r.map encodeJString) ++
      nlIndent lvl ++ [']'])

/-- The full file content `json.dump(data, f, ensure_ascii=False, indent=2)`
writes for the record list. -/
def dumpData (data : List (List String)) : List Char :=
  match data with
  | [] => ['[', ']']
  | _ :: _ =>
    '[' :: (nlIndent 1 ++
      joinSep (',' :: nlIndent 1) (data.map (dumpRecord 1)) ++
      nlIndent 0 ++ [']'])

/-- JSON whitespace (RFC 8259: space, tab, line feed, carriage return). -/
def isJsonWs (c : Char) : Bool :=
  c == ' ' || c == '\t' || c == '\n' || c == '\r'

/-- Drop leading JSON whitespace. -/
def skipWs : List Char → List Char
  | [] => []
  | c :: rest => if isJsonWs c then skipWs rest else c :: rest

/-- Value of one hexadecimal digit. -/
def hexVal (c : Char) : Option Nat :=
  if '0' ≤ c ∧ c ≤ '9' then some (c.toNat - 48)
  else if 'a' ≤ c ∧ c ≤ 'f' then some (c.toNat - 87)
  else if 'A' ≤ c ∧ c ≤ 'F' then some (c.toNat - 55)
  else none

/-- The two-character JSON escapes. -/
def unescapeChar (e : Char) : Option Char :=
  if e = '"' then some '"'
  else if e = '\\' then some '\\'
  else if e = '/' then some '/'
  else if e = 'b' then some (Char.ofNat 8)
  else if e = 't' then some (Char.ofNat 9)
  else if e = 'n' then some (Char.ofNat 10)
  else if e = 'f' then some (Char.ofNat 12)
  else if e = 'r' then some (Char.ofNat 13)
  else none

/-- JSON string body after the opening quote: decoded characters and the
input after the closing quote.  A `"` closes the string, `\uXXXX` decodes a
code point (the writer only ever emits code points below 0x20, so surrogate
pairs never arise and are rejected), `\` plus one character decodes a short
escape, and unescaped control characters are rejected (`json.load` runs in
strict mode). -/
def parseJStringBody : List Char → Option (List Char × List Char)
  | [] => none
  | '"' :: rest => some ([], rest)
  | '\\' :: 'u' :: h1 :: h2 :: h3 :: h4 :: rest =>
    (match hexVal h1, hexVal h2, hexVal h3, hexVal h4 with
     | some a, some b, some v, some d =>
       if ((a * 16 + b) * 16 + v) * 16 + d < 55296 then
         (parseJStringBody rest).map
           (fun p => (Char.ofNat (((a * 16 + b) * 16 + v) * 16 + d) :: p.1, p.2))
       else none
     | _, _, _, _ => none)
  | '\\' :: e :: rest =>
    (match unescapeChar e with
     | some u => (parseJStringBody rest).map (fun p => (u :: p.1, p.2))
     | none => none)
  | ['\\'] => none
  | c :: rest =>
    if c.toNat < 32 then none
    else (parseJStringBody rest).map (fun p => (c :: p.1, p.2))

/-- JSON string starting at the opening quote. -/
def parseJString (l : List Char) : Option (String × List Char) :=
  match l with
  | '"' :: rest => (parseJStringBody rest).map (fun p => (String.mk p.1, p.2))
  | _ => none

/-- Comma-separated string elements up to the closing `]` of a non-empty
array; `fuel` bounds the number of elements. -/
def parseStrItems : Nat → List Char → Option (List String × List Char)
  | 0, _ => none
  | fuel + 1, l =>
    match parseJString (skipWs l) with
    | none => none
    | some (s, rest) =>
      match skipWs rest with
      | ',' :: rest2 => (parseStrItems fuel rest2).map (fun p => (s :: p.1, p.2))
      | ']' :: rest2 => some ([s], rest2)
      | _ => none

/-- One JSON array of strings (an inner record). -/
def parseRecord (l : List Char) : Option (List String × List Char) :=
  match skipWs l with
  | '[' :: rest =>
    match skipWs rest with
    | ']' :: rest2 => some ([], rest2)
    | rest1 => parseStrItems (rest1.length + 1) rest1
  | _ => none

/-- Comma-separated record elements up to the closing `]` of a non-empty
outer array. -/
def parseRecItems : Nat → List Char → Option (List (List String) × List Char)
  | 0, _ => none
  | fuel + 1, l =>
    match parseRecord l with
    | none => none
    | some (r, rest) =>
      match skipWs rest with
      | ',' :: rest2 => (parseRecItems fuel rest2).map (fun p => (r :: p.1, p.2))
      | ']' :: rest2 => some ([r], rest2)
      | _ => none

/-- The outer JSON array of records. -/
def parseData (l : List Char) : Option (List (List String) × List Char) :=
  match skipWs l with
  | '[' :: rest =>
    match skipWs rest with
    | ']' :: rest2 => some ([], rest2)
    | rest1 => parseRecItems (rest1.length + 1) rest1
  | _ => none

/-- `json.load` on the data file: parse one value and require only
whitespace after it (`json.load` raises on extra data). -/
def jsonLoad (l : List Char) : Option (List (List String)) :=
  match parseData l with
  | some (d, rest) => if skipWs rest = [] then some d else none
  | none => none

/-! ## Filesystem model (`main.py` lines 38 and 96)

`open(path, "w", encoding="utf-8")` truncates/overwrites the destination
path; `os.makedirs(name, exist_ok=True)` creates the folder when absent,
succeeds silently when it exists, and raises `FileNotFoundError` for the
empty name. -/

/-- The set of existing folders, and `os.makedirs(name, exist_ok=True)`. -/
def pyMakedirs (dirs : List String) (name : String) : Except PyErr (List String) :=
  if name = "" then .error .fileNotFound
  else .ok (if dirs.contains name then dirs else name :: dirs)

/-- File store as a map from path to content; `open(path, "w")` followed by
a full write replaces whatever was at the path. -/
def pyWriteFile (fs : String → Option (List Char)) (path : String) (content : List Char) :
    String → Option (List Char) :=
  fun p => if p = path then some content else fs p

/-- The effect trace of one `scrape_website` call (empty when the folder
creation raised before anything happened). -/
def scrapeEffects (url : String) (crawl : CrawlBehavior) : List Effect :=
  match scrapeWebsite url crawl with
  | .ok s => s.effects
  | .error _ => []

/-- Sample listing container with the property-type sub-marker present and
the price sub-marker absent. -/
def c1SampleItem : Node :=
  Node.elem "div" ["search-list-item"]
    [Node.elem "div" ["property-type"] [Node.text " Villa "]]

/-- Sample document with no `search-list-item` container. -/
def c2SampleSoup : Node :=
  Node.elem "html" [] [Node.elem "div" ["content"] [Node.text "x"]]

/-- Sample listing container whose price sub-marker is a grandchild, not a
direct child. -/
def c9SampleItem : Node :=
  Node.elem "div" ["search-list-item"]
    [Node.elem "div" ["wrap"] [Node.elem "div" ["price"] [Node.text "42"]]]

/-- Sample fetched document for the pipeline-failure scenarios. -/
def c6SampleHtml : Node := Node.elem "html" [] []

/-! # Theorems -/

/-! ## Shared helper lemmas -/

theorem strMkData (s : String) : String.mk s.data = s := by cases s; rfl

mutual

theorem bs4Find_eq_aux (tag cls : String) :
    (n : Node) →
      bs4Find tag cls n = ((descendantsOf n).filter (nodeMatches tag cls)).head?
  | .text _ => rfl
  | .elem t k cs => by
    show bs4FindList tag cls cs =
      ((descendantsList cs).filter (nodeMatches tag cls)).head?
    exact bs4FindList_eq_aux tag cls cs

theorem bs4FindList_eq_aux (tag cls : String) :
    (ns : List Node) →
      bs4FindList tag cls ns = ((descendantsList ns).filter (nodeMatches tag cls)).head?
  | [] => rfl
  | n :: rest => by
    have hf := bs4Find_eq_aux tag cls n
    have hl := bs4FindList_eq_aux tag cls rest
    by_cases h : nodeMatches tag cls n
    · simp [bs4FindList, h, descendantsList, List.filter_cons]
    · simp only [bs4FindList, h, Bool.false_eq_true, if_false, descendantsList,
        List.filter_cons, List.filter_append]
      rw [hf]
      cases hfd : (descendantsOf n).filter (nodeMatches tag cls) with
      | nil => simpa using hl
      | cons m ms => simp

end

/-! ## C1 — missing sub-fields become the sentinel, present ones the text -/

/-- C1: for a listing container, the `i`-th field of the produced record is
the sentinel `"N/A"` exactly when the `i`-th sub-marker finds no node, and
otherwise the found node's stripped text (`get_text(strip=True)`). -/
theorem c1_missing_field_sentinel (item : Node) (i : Nat) (hi : i < 7) :
    (bs4Find "div" (fieldClasses.getD i "") item = none →
      (extractListing item).getD i "" = "N/A") ∧
    (∀ n, bs4Find "div" (fieldClasses.getD i "") item = some n →
      (extractListing item).getD i "" = getTextStrip n) := by
  interval_cases i <;>
    refine ⟨fun h => ?_, fun n hn => ?_⟩ <;>
    simp_all [extractListing, fieldClasses, extractField]

/-- C1 witness: on a container with the type sub-marker present and the
price sub-marker absent, the price field is `"N/A"` and the type field the
stripped text of the found node. -/
theorem c1_missing_field_sentinel_witness :
    (extractListing c1SampleItem).getD 3 "" = "N/A" ∧
    (extractListing c1SampleItem).getD 0 "" =
      getTextStrip (Node.elem "div" ["property-type"] [Node.text " Villa "]) :=
  ⟨(c1_missing_field_sentinel c1SampleItem 3 (by omega)).1 rfl,
   (c1_missing_field_sentinel c1SampleItem 0 (by omega)).2 _ rfl⟩

/-! ## C2 — zero listing containers give the empty record list -/

/-- C2: when no node matches the listing-container marker, the extractor
returns the empty sequence (it is a total function — no error path). -/
theorem c2_zero_matches_empty (soup : Node)
    (h : bs4FindAll "div" "search-list-item" soup = []) :
    webScraperExtract soup = [] := by
  unfold webScraperExtract
  rw [h]
  rfl

/-- C2 witness: a concrete document without listing containers. -/
theorem c2_zero_matches_empty_witness :
    bs4FindAll "div" "search-list-item" c2SampleSoup = [] ∧
    webScraperExtract c2SampleSoup = [] :=
  ⟨rfl, c2_zero_matches_empty c2SampleSoup rfl⟩

/-! ## C9 — sub-marker lookup recurses into all descendants -/

/-- C9 counterexample: on a container whose price marker is a grandchild,
the code extracts `"42"`, while a lookup restricted to direct children (the
claim's reading) finds nothing. -/
theorem c9_counterexample :
    extractField c9SampleItem "price" = "42" ∧
    findDirectChild "div" "price" c9SampleItem = none :=
  ⟨rfl, rfl⟩

/-- C9 (amended): `item.find('div', class_=cls)` searches the whole subtree
— it returns the first matching descendant in document order, at any
depth, not only among direct children. -/
theorem c9_find_searches_all_descendants (tag cls : String) (n : Node) :
    bs4Find tag cls n = ((descendantsOf n).filter (nodeMatches tag cls)).head? :=
  bs4Find_eq_aux tag cls n

/-- C9 witness: the amended statement at the grandchild-price container. -/
theorem c9_find_searches_all_descendants_witness :
    bs4Find "div" "price" c9SampleItem =
      ((descendantsOf c9SampleItem).filter (nodeMatches "div" "price")).head? :=
  c9_find_searches_all_descendants "div" "price" c9SampleItem

/-! ## C3 — retry schedule of the plain-HTTP fetch -/

theorem retryableNotSuccess {c : Nat}
    (h : isRetryableStatus test2RetryConfig "GET" c = true) :
    isSuccessStatus c = false := by
  simp [isRetryableStatus, test2RetryConfig] at h
  rcases h with h | h | h | h | h <;> subst h <;> rfl

/-- C3 counterexample: against a server that always answers 503, the
configured retry adapter sleeps `[0, 2, 4, 8, 16]` seconds — not the
claimed `[1, 2, 4, 8, 16]`: urllib3 applies no backoff before the first
retry. -/
theorem c3_counterexample :
    (sessionGetWithRetries test2RetryConfig "GET" (fun _ => 503)).1 ≠ [1, 2, 4, 8, 16] := by
  decide

/-- C3 (amended): when every response has a retryable status, the GET is
retried exactly 5 times with strictly increasing backoff delays of 0, 2, 4,
8 and 16 seconds and then fails with `MaxRetryError`; a non-retryable error
status fails immediately with no retry (via `raise_for_status`). -/
theorem c3_retry_schedule (statusOf : Nat → Nat)
    (h : ∀ i, isRetryableStatus test2RetryConfig "GET" (statusOf i) = true) :
    sessionGetWithRetries test2RetryConfig "GET" statusOf =
      ([0, 2, 4, 8, 16], .maxRetryError) ∧
    List.Chain' (· < ·) (sessionGetWithRetries test2RetryConfig "GET" statusOf).1 ∧
    (∀ code, 400 ≤ code → isRetryableStatus test2RetryConfig "GET" code = false →
      sessionGetWithRetries test2RetryConfig "GET" (fun _ => code) =
        ([], .statusError code)) := by
  have hmain :
      sessionGetWithRetries test2RetryConfig "GET" statusOf =
        ([0, 2, 4, 8, 16], .maxRetryError) := by
    have h0 := retryableNotSuccess (h 0)
    have h1 := retryableNotSuccess (h 1)
    have h2 := retryableNotSuccess (h 2)
    have h3 := retryableNotSuccess (h 3)
    have h4 := retryableNotSuccess (h 4)
    have h5 := retryableNotSuccess (h 5)
    have hr := h
    simp only [test2RetryConfig] at hr
    simp [sessionGetWithRetries, retryGo, test2RetryConfig, hr,
      h0, h1, h2, h3, h4, h5, getBackoffTime, backoffCeiling]
  refine ⟨hmain, ?_, ?_⟩
  · rw [hmain]
    norm_num [List.chain'_cons]
  · intro code hge hnr
    have hs : isSuccessStatus code = false := by
      simp [isSuccessStatus]
      omega
    simp [sessionGetWithRetries, retryGo, hs, hnr]

/-- C3 witness: the amended schedule at the constant-503 server. -/
theorem c3_retry_schedule_witness :
    sessionGetWithRetries test2RetryConfig "GET" (fun _ => 503) =
      ([0, 2, 4, 8, 16], .maxRetryError) :=
  (c3_retry_schedule (fun _ => 503) (fun _ => rfl)).1

/-! ## C10 — scheme-less URL gives an empty folder name and an early error -/

/-- C10: when the parsed network location is empty, the folder name is the
empty string, `os.makedirs` raises, and the run fails before any fetch is
attempted (the effect trace is empty). -/
theorem c10_empty_netloc_fails_before_fetch (url : String) (crawl : CrawlBehavior)
    (b : Bool) (h : urlparseNetloc url = "") :
    urlFolderName url = "" ∧
    createWebsiteFolder url = .error .fileNotFound ∧
    uiRun url crawl b = ⟨[], .error .fileNotFound⟩ := by
  have hf : urlFolderName url = "" := by
    unfold urlFolderName
    rw [h]
    rfl
  refine ⟨hf, ?_, ?_⟩
  · simp [createWebsiteFolder, hf]
  · simp [uiRun, scrapeWebsite, createWebsiteFolder, hf]

/-- C10 witness: the scheme-less URL from the claim. -/
theorem c10_empty_netloc_fails_before_fetch_witness :
    urlparseNetloc "boliga.dk/nye-boliger" = "" ∧
    uiRun "boliga.dk/nye-boliger" .never false = ⟨[], .error .fileNotFound⟩ :=
  ⟨by decide,
   (c10_empty_netloc_fails_before_fetch "boliga.dk/nye-boliger" .never false (by decide)).2.2⟩

/-! ## C5 — hung rendering fetch: timeout at the 300-second ceiling, no files -/

/-- C5: when the rendering crawl never completes, the wait is cut off with a
timeout after exactly `renderTimeout = 300` seconds (so no later than 300
seconds after the fetch starts), the scraper returns no data, and the run
writes none of the output files. -/
theorem c5_timeout_no_files (url : String) (b : Bool) (h : urlFolderName url ≠ "") :
    scrapeWebsite url .never =
      .ok ⟨[.mkdirFx (urlFolderName url), .fetchFx url], true, renderTimeout, none⟩ ∧
    renderTimeout = 300 ∧
    ∀ p, Effect.writeFx p ∉ (uiRun url .never b).effects := by
  refine ⟨?_, rfl, ?_⟩
  · simp [scrapeWebsite, createWebsiteFolder, h]
  · intro p
    simp [uiRun, scrapeWebsite, createWebsiteFolder, h]

/-- C5 witness: a well-formed URL whose crawl hangs. -/
theorem c5_timeout_no_files_witness :
    scrapeWebsite "https://www.boliga.dk/nye-boliger" .never =
      .ok ⟨[.mkdirFx (urlFolderName "https://www.boliga.dk/nye-boliger"),
            .fetchFx "https://www.boliga.dk/nye-boliger"], true, renderTimeout, none⟩ ∧
    Effect.writeFx "www/property_data.json" ∉
      (uiRun "https://www.boliga.dk/nye-boliger" .never false).effects :=
  ⟨(c5_timeout_no_files "https://www.boliga.dk/nye-boliger" false (by decide)).1,
   (c5_timeout_no_files "https://www.boliga.dk/nye-boliger" false (by decide)).2.2
     "www/property_data.json"⟩

/-! ## C6 — stage failures and partial files -/

theorem strAppendLeftCancel {s a b : String} (h : s ++ a = s ++ b) : a = b := by
  have h2 := congrArg String.data h
  rw [String.data_append, String.data_append] at h2
  have h3 := List.append_cancel_left h2
  cases a
  cases b
  exact congrArg String.mk h3

/-- C6 counterexample: with a successful fetch and a failing Summarizer, the
property data file has already been written, and the Summarizer failure
escapes the driver uncaught instead of being caught and logged. -/
theorem c6_counterexample :
    Effect.writeFx "www/property_data.json" ∈
      (uiRun "https://www.boliga.dk/nye-boliger" (.completesAt 10 c6SampleHtml) true).effects ∧
    (uiRun "https://www.boliga.dk/nye-boliger" (.completesAt 10 c6SampleHtml) true).result =
      .error .summarizationError :=
  ⟨by decide, rfl⟩

/-- C6 (amended): a fetch-stage failure is caught by the driver and no
output file is written; but a Summarizer failure after a successful fetch
propagates uncaught out of the driver, with the already-written property
data file left on disk (and no analysis or report file). -/
theorem c6_stage_failure_handling (url : String) (t : Nat) (html : Node) (b : Bool)
    (h : urlFolderName url ≠ "") (ht : t ≤ renderTimeout) :
    ((uiRun url (.raisesAt t) b).result = .ok () ∧
      ∀ p, Effect.writeFx p ∉ (uiRun url (.raisesAt t) b).effects) ∧
    ((uiRun url (.completesAt t html) true).result = .error .summarizationError ∧
      Effect.writeFx (urlFolderName url ++ "/property_data.json") ∈
        (uiRun url (.completesAt t html) true).effects ∧
      Effect.writeFx (urlFolderName url ++ "/property_analysis.md") ∉
        (uiRun url (.completesAt t html) true).effects ∧
      Effect.writeFx (urlFolderName url ++ "/property-report.md") ∉
        (uiRun url (.completesAt t html) true).effects) := by
  have hja : urlFolderName url ++ "/property_analysis.md" ≠
      urlFolderName url ++ "/property_data.json" := by
    intro hc
    have := strAppendLeftCancel hc
    simp at this
  have hjr : urlFolderName url ++ "/property-report.md" ≠
      urlFolderName url ++ "/property_data.json" := by
    intro hc
    have := strAppendLeftCancel hc
    simp at this
  refine ⟨⟨?_, ?_⟩, ?_, ?_, ?_, ?_⟩
  · simp [uiRun, scrapeWebsite, createWebsiteFolder, h, ht]
  · intro p
    simp [uiRun, scrapeWebsite, createWebsiteFolder, h, ht]
  · simp [uiRun, scrapeWebsite, createWebsiteFolder, h, ht]
  · simp [uiRun, scrapeWebsite, createWebsiteFolder, h, ht]
  · simp [uiRun, scrapeWebsite, createWebsiteFolder, h, ht, hja]
  · simp [uiRun, scrapeWebsite, createWebsiteFolder, h, ht, hjr]

/-- C6 witness: both branches of the amended statement at concrete inputs. -/
theorem c6_stage_failure_handling_witness :
    (uiRun "https://www.boliga.dk/nye-boliger" (.raisesAt 5) false).result = .ok () ∧
    (uiRun "https://www.boliga.dk/nye-boliger" (.completesAt 5 c6SampleHtml) true).result =
      .error .summarizationError :=
  ⟨(c6_stage_failure_handling "https://www.boliga.dk/nye-boliger" 5 c6SampleHtml false
      (by decide) (by norm_num [renderTimeout])).1.1,
   (c6_stage_failure_handling "https://www.boliga.dk/nye-boliger" 5 c6SampleHtml false
      (by decide) (by norm_num [renderTimeout])).2.1⟩

/-! ## C7 — side effects of the fetch routine -/

/-- C7 counterexample: invoking the rendering-fetch routine creates the
destination folder — its side effects are not limited to the network
call. -/
theorem c7_counterexample :
    Effect.mkdirFx "www" ∈ scrapeEffects "https://www.boliga.dk/nye-boliger" .never := by
  decide

/-- C7 (amended): however the crawl behaves, the rendering-fetch routine's
first side effect is creating the destination folder, followed by the
network call. -/
theorem c7_fetch_creates_folder_first (url : String) (crawl : CrawlBehavior)
    (h : urlFolderName url ≠ "") :
    (scrapeEffects url crawl).take 2 =
      [Effect.mkdirFx (urlFolderName url), Effect.fetchFx url] := by
  cases crawl <;>
    simp [scrapeEffects, scrapeWebsite, createWebsiteFolder, h] <;>
    split_ifs <;>
    rfl

/-- C7 witness: the amended statement on a hung crawl. -/
theorem c7_fetch_creates_folder_first_witness :
    (scrapeEffects "https://www.boliga.dk/nye-boliger" .never).take 2 =
      [Effect.mkdirFx (urlFolderName "https://www.boliga.dk/nye-boliger"),
       Effect.fetchFx "https://www.boliga.dk/nye-boliger"] :=
  c7_fetch_creates_folder_first "https://www.boliga.dk/nye-boliger" .never (by decide)

/-! ## C8 — Persister contract -/

/-- C8: the serializer leaves every non-ASCII character literal (no escaping
to ASCII, per `ensure_ascii=False`); writing a file replaces any previous
content at the destination path; and `os.makedirs(..., exist_ok=True)` on a
non-empty name succeeds, makes the folder exist, and a second creation
succeeds and changes nothing. -/
theorem c8_persister_contract :
    (∀ c : Char, 128 ≤ c.toNat → escChar c = [c]) ∧
    (∀ (fs : String → Option (List Char)) (path : String) (content : List Char),
      pyWriteFile fs path content path = some content) ∧
    (∀ (dirs : List String) (name : String) (d1 : List String), name ≠ "" →
      pyMakedirs dirs name = .ok d1 → name ∈ d1 ∧ pyMakedirs d1 name = .ok d1) := by
  refine ⟨?_, ?_, ?_⟩
  · intro c hc
    have hb : c ≠ '\\' := by
      intro he
      subst he
      exact absurd hc (by decide)
    have hq : c ≠ '"' := by
      intro he
      subst he
      exact absurd hc (by decide)
    have hctl : ¬ c.toNat < 32 := by omega
    simp [escChar, hb, hq, hctl]
  · intro fs path content
    simp [pyWriteFile]
  · intro dirs name d1 hn hmk
    unfold pyMakedirs at hmk ⊢
    rw [if_neg hn] at hmk ⊢
    injection hmk with hd
    subst hd
    by_cases hc : name ∈ dirs
    · have hcb : dirs.contains name = true := by simpa using hc
      simp [hcb, hc]
    · have hcb : dirs.contains name = false := by simp [hc]
      simp [hcb, hc]

/-- C8 witness: a non-ASCII character survives literally, a write overwrites,
and folder creation is idempotent on a concrete store. -/
theorem c8_persister_contract_witness :
    escChar 'æ' = ['æ'] ∧
    pyWriteFile (fun _ => some ['o']) "www/property_data.json" ['n'] "www/property_data.json" =
      some ['n'] ∧
    ("www" ∈ ["www"] ∧ pyMakedirs ["www"] "www" = .ok ["www"]) :=
  ⟨c8_persister_contract.1 'æ' (by decide),
   c8_persister_contract.2.1 (fun _ => some ['o']) "www/property_data.json" ['n'],
   c8_persister_contract.2.2 [] "www" ["www"] (by decide) rfl⟩

/-! ## C4 — JSON round-trip: lemmas on strings and whitespace -/

theorem hexVal_hexDigitChar (k : Nat) (hk : k < 16) :
    hexVal (hexDigitChar k) = some k := by
  interval_cases k <;> decide

theorem isJsonWs_quote : isJsonWs '"' = false := rfl

theorem skipWs_ws_append (w l : List Char) (hw : ∀ c ∈ w, isJsonWs c = true) :
    skipWs (w ++ l) = skipWs l := by
  induction w with
  | nil => rfl
  | cons c w ih =>
    have hc := hw c (List.mem_cons_self c w)
    simp only [List.cons_append, skipWs, hc, if_true]
    exact ih (fun d hd => hw d (List.mem_cons_of_mem c hd))

theorem skipWs_not_ws (c : Char) (l : List Char) (h : isJsonWs c = false) :
    skipWs (c :: l) = c :: l := by
  simp [skipWs, h]

theorem nlIndent_ws (lvl : Nat) : ∀ c ∈ nlIndent lvl, isJsonWs c = true := by
  intro c hc
  simp only [nlIndent, List.mem_cons, List.mem_replicate] at hc
  rcases hc with h | ⟨-, h⟩ <;> subst h <;> rfl


theorem parseJStringBody_enc (s tail : List Char) :
    parseJStringBody (s.flatMap escChar ++ ('"' :: tail)) = some (s, tail) := by
  induction s with
  | nil => simp [parseJStringBody]
  | cons c s ih =>
    show parseJStringBody ((escChar c ++ s.flatMap escChar) ++ ('"' :: tail)) = _
    rw [List.append_assoc]
    by_cases h1 : c = '\\'
    · rw [show escChar c = ['\\', '\\'] by simp [escChar, h1], h1]
      simp [parseJStringBody, unescapeChar, ih]
    · by_cases h2 : c = '"'
      · rw [show escChar c = ['\\', '"'] by simp [escChar, h1, h2], h2]
        simp [parseJStringBody, unescapeChar, ih]
      · by_cases h3 : c.toNat < 32
        · by_cases hb : c.toNat = 8
          · rw [show escChar c = ['\\', 'b'] by simp [escChar, h1, h2, h3, hb]]
            have hc : Char.ofNat 8 = c := by rw [← hb]; exact Char.ofNat_toNat c
            simp [parseJStringBody, unescapeChar, ih]
            exact hc
          · by_cases ht : c.toNat = 9
            · rw [show escChar c = ['\\', 't'] by simp [escChar, h1, h2, h3, hb, ht]]
              have hc : Char.ofNat 9 = c := by rw [← ht]; exact Char.ofNat_toNat c
              simp [parseJStringBody, unescapeChar, ih]
              exact hc
            · by_cases hn : c.toNat = 10
              · rw [show escChar c = ['\\', 'n'] by simp [escChar, h1, h2, h3, hb, ht, hn]]
                have hc : Char.ofNat 10 = c := by rw [← hn]; exact Char.ofNat_toNat c
                simp [parseJStringBody, unescapeChar, ih]
                exact hc
              · by_cases hf : c.toNat = 12
                · rw [show escChar c = ['\\', 'f'] by simp [escChar, h1, h2, h3, hb, ht, hn, hf]]
                  have hc : Char.ofNat 12 = c := by rw [← hf]; exact Char.ofNat_toNat c
                  simp [parseJStringBody, unescapeChar, ih]
                  exact hc
                · by_cases hr : c.toNat = 13
                  · rw [show escChar c = ['\\', 'r'] by
                      simp [escChar, h1, h2, h3, hb, ht, hn, hf, hr]]
                    have hc : Char.ofNat 13 = c := by rw [← hr]; exact Char.ofNat_toNat c
                    simp [parseJStringBody, unescapeChar, ih]
                    exact hc
                  · rw [show escChar c = ['\\', 'u', '0', '0', hexDigitChar (c.toNat / 16),
                        hexDigitChar (c.toNat % 16)] by
                      simp [escChar, h1, h2, h3, hb, ht, hn, hf, hr]]
                    have h00 : hexVal '0' = some 0 := rfl
                    have hd1 := hexVal_hexDigitChar (c.toNat / 16) (by omega)
                    have hd2 := hexVal_hexDigitChar (c.toNat % 16) (by omega)
                    have harith2 : c.toNat / 16 * 16 + c.toNat % 16 = c.toNat := by omega
                    have hc := Char.ofNat_toNat c
                    simp [parseJStringBody, h00, hd1, hd2, ih]
                    constructor
                    · omega
                    · rw [harith2]
                      exact hc
        · rw [show escChar c = [c] by simp [escChar, h1, h2, h3]]
          simp [parseJStringBody, h1, h2, h3, ih]

theorem parseJString_enc (s : String) (rest : List Char) :
    parseJString (encodeJString s ++ rest) = some (s, rest) := by
  have e1 : encodeJString s ++ rest = '"' :: (s.data.flatMap escChar ++ ('"' :: rest)) := by
    simp [encodeJString]
  rw [e1]
  simp only [parseJString, parseJStringBody_enc]
  simp [strMkData]

theorem length_le_joinSep (sep : List Char) (items : List (List Char))
    (h : ∀ x ∈ items, 1 ≤ x.length) : items.length ≤ (joinSep sep items).length := by
  induction items with
  | nil => simp [joinSep]
  | cons x rest ih =>
    cases rest with
    | nil =>
      have := h x (List.mem_cons_self x [])
      simpa [joinSep] using this
    | cons y r2 =>
      have hx := h x (List.mem_cons_self x (y :: r2))
      have hr := ih (fun z hz => h z (List.mem_cons_of_mem x hz))
      simp only [joinSep, List.length_cons, List.length_append] at hr ⊢
      omega

theorem parseJString_ws_enc (W : List Char) (hW : ∀ c ∈ W, isJsonWs c = true)
    (s : String) (X : List Char) :
    parseJString (skipWs (W ++ (encodeJString s ++ X))) = some (s, X) := by
  rw [skipWs_ws_append _ _ hW]
  rw [show encodeJString s ++ X = '"' :: ((s.data.flatMap escChar ++ ['"']) ++ X) by
    simp [encodeJString]]
  rw [skipWs_not_ws _ _ isJsonWs_quote]
  rw [show ('"' : Char) :: ((s.data.flatMap escChar ++ ['"']) ++ X) = encodeJString s ++ X by
    simp [encodeJString]]
  exact parseJString_enc s X

theorem parseStrItems_enc (w1 : List Char) (hw1 : ∀ c ∈ w1, isJsonWs c = true) :
    ∀ (r : List String) (fuel : Nat) (w0 w2 tail : List Char),
      (∀ c ∈ w0, isJsonWs c = true) → (∀ c ∈ w2, isJsonWs c = true) →
      r ≠ [] → r.length ≤ fuel →
      parseStrItems fuel
          (w0 ++ (joinSep (',' :: w1) (r.map encodeJString) ++ (w2 ++ (']' :: tail)))) =
        some (r, tail) := by
  intro r
  induction r with
  | nil =>
    intro fuel w0 w2 tail _ _ hne _
    exact absurd rfl hne
  | cons s rest ih =>
    intro fuel w0 w2 tail hw0 hw2 _ hlen
    cases fuel with
    | zero =>
      simp at hlen
    | succ f =>
      cases rest with
      | nil =>
        simp only [List.map_cons, List.map_nil, joinSep, parseStrItems]
        rw [parseJString_ws_enc w0 hw0 s (w2 ++ (']' :: tail))]
        have e2 : skipWs (w2 ++ (']' :: tail)) = ']' :: tail := by
          rw [skipWs_ws_append _ _ hw2]
          exact skipWs_not_ws _ _ rfl
        simp [e2]
      | cons s2 r2 =>
        have eassoc : joinSep (',' :: w1) ((s :: s2 :: r2).map encodeJString) ++
            (w2 ++ (']' :: tail)) =
            encodeJString s ++ (',' :: (w1 ++
              (joinSep (',' :: w1) ((s2 :: r2).map encodeJString) ++ (w2 ++ (']' :: tail))))) := by
          simp only [List.map_cons, joinSep]
          simp [List.append_assoc]
        rw [eassoc]
        simp only [parseStrItems]
        rw [parseJString_ws_enc w0 hw0 s _]
        have e2 : skipWs (',' :: (w1 ++ (joinSep (',' :: w1)
            ((s2 :: r2).map encodeJString) ++ (w2 ++ (']' :: tail))))) =
            ',' :: (w1 ++ (joinSep (',' :: w1) ((s2 :: r2).map encodeJString) ++
              (w2 ++ (']' :: tail)))) := skipWs_not_ws _ _ rfl
        have e3 := ih f w1 w2 tail hw1 hw2 (by simp) (by simp at hlen ⊢; omega)
        simp only [List.map_cons] at e2 e3
        simp [e2, e3]

theorem skipWs_cons_lb (l : List Char) : skipWs ('[' :: l) = '[' :: l :=
  skipWs_not_ws '[' l rfl

theorem skipWs_cons_rb (l : List Char) : skipWs (']' :: l) = ']' :: l :=
  skipWs_not_ws ']' l rfl

theorem skipWs_cons_comma (l : List Char) : skipWs (',' :: l) = ',' :: l :=
  skipWs_not_ws ',' l rfl

theorem dumpRecord_head (lvl : Nat) (r : List String) :
    ∃ L, dumpRecord lvl r = '[' :: L := by
  cases r with
  | nil => exact ⟨[']'], rfl⟩
  | cons s rest => exact ⟨_, rfl⟩

theorem encodeJString_ne_nil (s : String) : 1 ≤ (encodeJString s).length := by
  simp [encodeJString]

theorem dumpRecord_ne_nil (lvl : Nat) (r : List String) : 1 ≤ (dumpRecord lvl r).length := by
  obtain ⟨L, hL⟩ := dumpRecord_head lvl r
  simp [hL]

theorem joinSep_enc_head (W : List Char) (s : String) (rest : List String) :
    ∃ L, joinSep (',' :: W) ((s :: rest).map encodeJString) = '"' :: L := by
  cases rest with
  | nil => exact ⟨s.data.flatMap escChar ++ ['"'], by simp [joinSep, encodeJString]⟩
  | cons a b =>
    refine ⟨(s.data.flatMap escChar ++ ['"']) ++ ((',' :: W) ++
      joinSep (',' :: W) ((a :: b).map encodeJString)), ?_⟩
    simp [joinSep, encodeJString]

theorem joinSep_dump_head (W : List Char) (d : List String) (rest : List (List String)) :
    ∃ L, joinSep (',' :: W) ((d :: rest).map (dumpRecord 1)) = '[' :: L := by
  obtain ⟨L0, hL0⟩ := dumpRecord_head 1 d
  cases rest with
  | nil => exact ⟨L0, by simp [joinSep, hL0]⟩
  | cons a b =>
    refine ⟨L0 ++ ((',' :: W) ++ joinSep (',' :: W) ((a :: b).map (dumpRecord 1))), ?_⟩
    simp [joinSep, hL0]

theorem parseRecord_enc (lvl : Nat) (r : List String) (w0 tail : List Char)
    (hw0 : ∀ c ∈ w0, isJsonWs c = true) :
    parseRecord (w0 ++ (dumpRecord lvl r ++ tail)) = some (r, tail) := by
  cases r with
  | nil =>
    unfold parseRecord
    rw [show dumpRecord lvl [] ++ tail = '[' :: (']' :: tail) by simp [dumpRecord]]
    rw [skipWs_ws_append _ _ hw0, skipWs_cons_lb]
    simp [skipWs_cons_rb]
  | cons s rest =>
    unfold parseRecord
    obtain ⟨L, hL⟩ := joinSep_enc_head (nlIndent (lvl + 1)) s rest
    have eassoc : dumpRecord lvl (s :: rest) ++ tail =
        '[' :: (nlIndent (lvl + 1) ++
          (joinSep (',' :: nlIndent (lvl + 1)) ((s :: rest).map encodeJString) ++
            (nlIndent lvl ++ (']' :: tail)))) := by
      simp [dumpRecord, List.append_assoc]
    have einner : skipWs (nlIndent (lvl + 1) ++
        (joinSep (',' :: nlIndent (lvl + 1)) ((s :: rest).map encodeJString) ++
          (nlIndent lvl ++ (']' :: tail)))) =
        '"' :: (L ++ (nlIndent lvl ++ (']' :: tail))) := by
      rw [skipWs_ws_append _ _ (nlIndent_ws (lvl + 1)), hL]
      rw [show ('"' :: L) ++ (nlIndent lvl ++ (']' :: tail)) =
        '"' :: (L ++ (nlIndent lvl ++ (']' :: tail))) by simp]
      exact skipWs_not_ws _ _ isJsonWs_quote
    have hfuel : (s :: rest).length ≤
        ('"' :: (L ++ (nlIndent lvl ++ (']' :: tail)))).length + 1 := by
      have h1 : ((s :: rest).map encodeJString).length ≤
          (joinSep (',' :: nlIndent (lvl + 1)) ((s :: rest).map encodeJString)).length := by
        apply length_le_joinSep
        intro x hx
        obtain ⟨y, -, hy⟩ := List.mem_map.mp hx
        rw [← hy]
        exact encodeJString_ne_nil y
      rw [hL] at h1
      simp only [List.length_map, List.length_cons, List.length_append] at h1 ⊢
      omega
    have hmain := parseStrItems_enc (nlIndent (lvl + 1)) (nlIndent_ws (lvl + 1))
      (s :: rest) (('"' :: (L ++ (nlIndent lvl ++ (']' :: tail)))).length + 1)
      [] (nlIndent lvl) tail (by simp) (nlIndent_ws lvl) (by simp) hfuel
    rw [List.nil_append, hL] at hmain
    rw [show ('"' :: L) ++ (nlIndent lvl ++ (']' :: tail)) =
      '"' :: (L ++ (nlIndent lvl ++ (']' :: tail))) by simp] at hmain
    rw [eassoc, skipWs_ws_append _ _ hw0, skipWs_cons_lb]
    simp only [einner]
    simpa using hmain

theorem parseRecItems_enc (w1 : List Char) (hw1 : ∀ c ∈ w1, isJsonWs c = true) :
    ∀ (ds : List (List String)) (fuel : Nat) (w0 w2 tail : List Char),
      (∀ c ∈ w0, isJsonWs c = true) → (∀ c ∈ w2, isJsonWs c = true) →
      ds ≠ [] → ds.length ≤ fuel →
      parseRecItems fuel
          (w0 ++ (joinSep (',' :: w1) (ds.map (dumpRecord 1)) ++ (w2 ++ (']' :: tail)))) =
        some (ds, tail) := by
  intro ds
  induction ds with
  | nil =>
    intro fuel w0 w2 tail _ _ hne _
    exact absurd rfl hne
  | cons d rest ih =>
    intro fuel w0 w2 tail hw0 hw2 _ hlen
    cases fuel with
    | zero =>
      simp at hlen
    | succ f =>
      cases rest with
      | nil =>
        simp only [List.map_cons, List.map_nil, joinSep, parseRecItems]
        rw [parseRecord_enc 1 d w0 (w2 ++ (']' :: tail)) hw0]
        have e2 : skipWs (w2 ++ (']' :: tail)) = ']' :: tail := by
          rw [skipWs_ws_append _ _ hw2]
          exact skipWs_cons_rb tail
        simp [e2]
      | cons d2 r2 =>
        have eassoc : joinSep (',' :: w1) ((d :: d2 :: r2).map (dumpRecord 1)) ++
            (w2 ++ (']' :: tail)) =
            dumpRecord 1 d ++ (',' :: (w1 ++
              (joinSep (',' :: w1) ((d2 :: r2).map (dumpRecord 1)) ++
                (w2 ++ (']' :: tail))))) := by
          simp only [List.map_cons, joinSep]
          simp [List.append_assoc]
        rw [eassoc]
        simp only [parseRecItems]
        rw [parseRecord_enc 1 d w0 _ hw0]
        have e2 : skipWs (',' :: (w1 ++ (joinSep (',' :: w1)
            ((d2 :: r2).map (dumpRecord 1)) ++ (w2 ++ (']' :: tail))))) =
            ',' :: (w1 ++ (joinSep (',' :: w1) ((d2 :: r2).map (dumpRecord 1)) ++
              (w2 ++ (']' :: tail)))) := skipWs_cons_comma _
        have e3 := ih f w1 w2 tail hw1 hw2 (by simp) (by simp at hlen ⊢; omega)
        simp only [List.map_cons] at e2 e3
        simp [e2, e3]

/-- The reader inverts the writer: parsing the dumped file consumes it
entirely and recovers the record list. -/
theorem parseData_dump (ds : List (List String)) :
    parseData (dumpData ds) = some (ds, []) := by
  cases ds with
  | nil =>
    simp [dumpData, parseData, skipWs_cons_lb, skipWs_cons_rb]
  | cons d rest =>
    unfold parseData
    obtain ⟨L, hL⟩ := joinSep_dump_head (nlIndent 1) d rest
    have eassoc : dumpData (d :: rest) =
        '[' :: (nlIndent 1 ++
          (joinSep (',' :: nlIndent 1) ((d :: rest).map (dumpRecord 1)) ++
            (nlIndent 0 ++ (']' :: [])))) := by
      simp [dumpData, List.append_assoc]
    have einner : skipWs (nlIndent 1 ++
        (joinSep (',' :: nlIndent 1) ((d :: rest).map (dumpRecord 1)) ++
          (nlIndent 0 ++ (']' :: [])))) =
        '[' :: (L ++ (nlIndent 0 ++ (']' :: []))) := by
      rw [skipWs_ws_append _ _ (nlIndent_ws 1), hL]
      rw [show ('[' :: L) ++ (nlIndent 0 ++ (']' :: [])) =
        '[' :: (L ++ (nlIndent 0 ++ (']' :: []))) by simp]
      exact skipWs_cons_lb _
    have hfuel : (d :: rest).length ≤
        ('[' :: (L ++ (nlIndent 0 ++ (']' :: [])))).length + 1 := by
      have h1 : ((d :: rest).map (dumpRecord 1)).length ≤
          (joinSep (',' :: nlIndent 1) ((d :: rest).map (dumpRecord 1))).length := by
        apply length_le_joinSep
        intro x hx
        obtain ⟨y, -, hy⟩ := List.mem_map.mp hx
        rw [← hy]
        exact dumpRecord_ne_nil 1 y
      rw [hL] at h1
      simp only [List.length_map, List.length_cons, List.length_append] at h1 ⊢
      omega
    have hmain := parseRecItems_enc (nlIndent 1) (nlIndent_ws 1)
      (d :: rest) (('[' :: (L ++ (nlIndent 0 ++ (']' :: [])))).length + 1)
      [] (nlIndent 0) [] (by simp) (nlIndent_ws 0) (by simp) hfuel
    rw [List.nil_append, hL] at hmain
    rw [show ('[' :: L) ++ (nlIndent 0 ++ (']' :: [])) =
      '[' :: (L ++ (nlIndent 0 ++ (']' :: []))) by simp] at hmain
    rw [eassoc, skipWs_cons_lb]
    simp only [einner]
    simpa using hmain

/-- C4: serializing any record sequence the way the source does
(`json.dump(data, f, ensure_ascii=False, indent=2)`) and reading the file
back (`json.load`) yields the identical sequence — the order of records,
the positional order of the seven fields inside each record, and any
`"N/A"` sentinel values included. -/
theorem c4_serialize_roundtrip (data : List (List String)) :
    jsonLoad (dumpData data) = some data := by
  unfold jsonLoad
  rw [parseData_dump]
  rfl

/-- C4 witness: the round-trip at the spec's end-to-end example records. -/
theorem c4_serialize_roundtrip_witness :
    jsonLoad (dumpData
      [["Villa", "4", "120 m²", "2.500.000", "Main St 1", "A", "2024-01-01"],
       ["Hus", "3", "90 m²", "N/A", "Side St 2", "N/A", "2024-02-02"]]) =
    some
      [["Villa", "4", "120 m²", "2.500.000", "Main St 1", "A", "2024-01-01"],
       ["Hus", "3", "90 m²", "N/A", "Side St 2", "N/A", "2024-02-02"]] :=
  c4_serialize_roundtrip _
